import Mathlib

/-!
Shallow embedding of the SBOM normalization and aggregation pipeline
(parse-sboms: `severityOrder`, `pickCVSS`, `licenseNames`, `countSeverities`,
`validateCycloneDX`, `indexCycloneDX`, `buildTopCVEs`, `main`).

CycloneDX documents are modelled as typed records with every field optional,
mirroring the duck-typed field access of the JavaScript source; JavaScript
truthiness on strings (empty string is falsy) and nullish coalescing are made
explicit.  Malformed (non-object) entries in the `components` and
`vulnerabilities` arrays are modelled as `none` elements, matching the
guard `typeof x === "object"` in the source.  JavaScript numbers are
modelled as rationals.
-/

namespace Sbom

/-- Uppercase a string character by character (`toUpperCase` on the ASCII
range, as the source applies it to severity text). -/
def jsToUpper (s : String) : String :=
  String.mk (s.data.map Char.toUpper)

/-- Lowercase a string character by character. -/
def jsToLower (s : String) : String :=
  String.mk (s.data.map Char.toLower)

/-- Source `s.slice(0, n)`: the first `n` characters. -/
def jsSlice (s : String) (n : Nat) : String :=
  String.mk (s.data.take n)

/-- JavaScript strict numeric comparison `x < y` on rationals, computed by
cross-multiplying the normalized numerator and denominator so that the
kernel can evaluate it on literals. -/
def jsLt (x y : ℚ) : Bool :=
  x.num * (y.den : ℤ) < y.num * (x.den : ℤ)

/-- JavaScript numeric comparison `x <= y` on rationals. -/
def jsLe (x y : ℚ) : Bool :=
  x.num * (y.den : ℤ) ≤ y.num * (x.den : ℤ)

/-- Source `Math.max` on two numbers. -/
def jsMax (x y : ℚ) : ℚ :=
  if jsLt x y then y else x

theorem jsLt_iff (x y : ℚ) : jsLt x y = true ↔ x < y := by
  rw [jsLt, decide_eq_true_eq, Rat.lt_def]

theorem jsLe_iff (x y : ℚ) : jsLe x y = true ↔ x ≤ y := by
  rw [jsLe, decide_eq_true_eq, Rat.le_def]

theorem jsMax_eq_max (x y : ℚ) : jsMax x y = max x y := by
  rw [jsMax, max_def]
  by_cases h : x < y
  · rw [if_pos ((jsLt_iff x y).mpr h), if_pos h.le]
  · have hb : jsLt x y = false := by
      rcases Bool.eq_false_or_eq_true (jsLt x y) with hb | hb
      · exact absurd ((jsLt_iff x y).mp hb) h
      · exact hb
    rw [hb]
    simp only [Bool.false_eq_true, if_false]
    by_cases hle : x ≤ y
    · rw [if_pos hle, le_antisymm hle (not_lt.mp h)]
    · rw [if_neg hle]

/-- Code-unit comparison of two character lists, the order JavaScript
default `sort()` applies to strings. -/
def charListLe : List Char → List Char → Bool
  | [], _ => true
  | _ :: _, [] => false
  | a :: as, b :: bs =>
      if a.toNat < b.toNat then true
      else if b.toNat < a.toNat then false
      else charListLe as bs

/-- Code-unit order on strings. -/
def strLe (a b : String) : Bool :=
  charListLe a.data b.data

/-- JavaScript truthiness of an optional string: present and non-empty. -/
def strTruthy : Option String → Bool
  | some s => s ≠ ""
  | none => false

/-- JavaScript `x || null` on an optional string: falsy collapses to null. -/
def strOrNull (x : Option String) : Option String :=
  if strTruthy x then x else none

/-- JavaScript `a || b` on optional strings: first operand unless falsy. -/
def orStr (a b : Option String) : Option String :=
  if strTruthy a then a else b

/-- JavaScript map-then-`filter(Boolean)` over entries that may be nullish:
keeps exactly the present, non-empty strings, in order. -/
def truthyStrings (l : List (Option String)) : List String :=
  (l.filterMap id).filter (fun s => s ≠ "")

/-- Severity-to-rank table of `severityOrder`:
`{critical:4, high:3, medium:2, low:1, info:0, none:0, unknown:0}` with
case-insensitive lookup and default 0. -/
def severityOrder (s : String) : Nat :=
  match jsToLower s with
  | "critical" => 4
  | "high" => 3
  | "medium" => 2
  | "low" => 1
  | _ => 0

/-- One entry of a `ratings` / `cvss` array, all fields optional as in the
loosely shaped scanner output. -/
structure Rating where
  score : Option ℚ
  baseScore : Option ℚ
  severity : Option String
  baseSeverity : Option String
  method : Option String
  source : Option String
deriving DecidableEq, Repr

/-- Result shape of `pickCVSS`: `{ score, severity, method }`. -/
structure BestRating where
  score : Option ℚ
  severity : String
  method : Option String
deriving DecidableEq, Repr

/-- The candidate object `pickCVSS` builds from one rating entry. -/
def ratingObj (r : Rating) : BestRating :=
  { score := r.score <|> r.baseScore
    severity := jsToUpper ((orStr r.severity r.baseSeverity).getD "")
    method := strOrNull (orStr r.method r.source) }

/-- Validity test of one rating entry in `pickCVSS`: it is skipped iff the
score is nullish and the severity is falsy. -/
def ratingValid (r : Rating) : Bool :=
  (r.score <|> r.baseScore).isSome || strTruthy (orStr r.severity r.baseSeverity)

/-- Step function of the `pickCVSS` loop: keep the current best unless the
new candidate is valid and its score (null as 0) is strictly greater. -/
def pickStep (best : Option BestRating) (r : Rating) : Option BestRating :=
  if ratingValid r then
    match best with
    | none => some (ratingObj r)
    | some b =>
        if jsLt (b.score.getD 0) ((ratingObj r).score.getD 0) then some (ratingObj r) else some b
  else best

/-- Source `pickCVSS(scores)`: fold over all entries keeping the best candidate. -/
def pickCVSS (scores : List Rating) : Option BestRating :=
  scores.foldl pickStep none

/-- One entry of a `licenses` array: `license.id`, `license.name`,
`expression`, each optional. -/
structure LicenseEntry where
  licenseId : Option String
  licenseName : Option String
  expression : Option String
deriving DecidableEq, Repr

/-- The at-most-one name one license entry contributes in `licenseNames`. -/
def licenseName1 (l : LicenseEntry) : Option String :=
  if strTruthy l.licenseId then l.licenseId
  else if strTruthy l.licenseName then l.licenseName
  else if strTruthy l.expression then l.expression
  else none

/-- Source `licenseNames(licenses)`: ordered, non-deduplicated extraction. -/
def licenseNames (ls : List LicenseEntry) : List String :=
  ls.filterMap licenseName1

/-- A declared component; `bomRefDash` is the `bom-ref` key, `bomRefCamel`
the `bomRef` key. -/
structure Component where
  bomRefDash : Option String
  bomRefCamel : Option String
  purl : Option String
  name : Option String
  version : Option String
  licenses : Option (List LicenseEntry)
  scope : Option String
deriving DecidableEq, Repr

/-- The all-absent component placeholder `{}` used for unattributed findings
and dangling references. -/
def emptyComponent : Component :=
  ⟨none, none, none, none, none, none, none⟩

/-- Identity key of a component:
the first truthy of `bom-ref`, `bomRef`, `purl`, else a synthesized
`name@version` with name defaulting to "component". -/
def componentKey (c : Component) : String :=
  if strTruthy c.bomRefDash then c.bomRefDash.getD ""
  else if strTruthy c.bomRefCamel then c.bomRefCamel.getD ""
  else if strTruthy c.purl then c.purl.getD ""
  else (if strTruthy c.name then c.name.getD "" else "component") ++ "@" ++ c.version.getD ""

/-- Lookup in the component map: insertion order is kept in the association
list and a later insert with the same key wins, matching `Map.set`. -/
def lookupLast (m : List (String × Component)) (k : String) : Option Component :=
  m.foldl (fun acc p => if p.1 = k then some p.2 else acc) none

/-- One entry of a `cwes` array: either an object with an optional `id`
field or a raw numeric scalar. -/
inductive CweEntry where
  | objE (id : Option ℚ)
  | rawE (n : ℚ)
deriving DecidableEq, Repr

/-- A value appearing in the normalized `cwes` output list: the extracted id
or, when the object contributes no truthy id, the object itself. -/
inductive CweVal where
  | numV (q : ℚ)
  | objV (id : Option ℚ)
deriving DecidableEq, Repr

/-- The mapping `x => x?.id || x` followed by `filter(Boolean)` on one cwes
entry: a falsy extracted id falls back to the entry itself; a falsy raw
scalar is dropped. -/
def cweExtract : CweEntry → Option CweVal
  | .objE (some i) => if i ≠ 0 then some (.numV i) else some (.objV (some i))
  | .objE none => some (.objV none)
  | .rawE n => if n ≠ 0 then some (.numV n) else none

/-- The `analysis` object of a vulnerability record. -/
structure Analysis where
  response : Option (List String)
deriving DecidableEq, Repr

/-- A vulnerability record with every field optional.  An `affects` element
is modelled by the value of `a?.ref` (`none` for a nullish entry or a
missing ref); a `references` element by the value of `r?.url`. -/
structure Vuln where
  id : Option String
  description : Option String
  severity : Option String
  ratings : Option (List Rating)
  cvss : Option (List Rating)
  affects : Option (List (Option String))
  cwes : Option (List CweEntry)
  references : Option (List (Option String))
  analysis : Option Analysis
deriving DecidableEq, Repr

/-- The vulnerability record with every field absent. -/
def emptyVuln : Vuln :=
  ⟨none, none, none, none, none, none, none, none, none⟩

/-- Step 1 of the normalizer:
`Array.isArray(v.affects) ? v.affects.map(a => a?.ref).filter(Boolean) : []`. -/
def resolveAffects (affects : Option (List (Option String))) : List String :=
  truthyStrings (affects.getD [])

/-- The ratings array handed to `pickCVSS`: `ratings` if it is an array,
else `cvss` if it is an array, else `[]`. -/
def ratingsOf (v : Vuln) : List Rating :=
  match v.ratings with
  | some l => l
  | none => v.cvss.getD []

/-- The severity chain `v.severity || rating?.severity || "UNKNOWN"` before
uppercasing; the empty string is falsy at each step. -/
def sevChain (vsev : Option String) (rating : Option BestRating) : String :=
  if strTruthy vsev then vsev.getD ""
  else
    match rating with
    | some b => if b.severity = "" then "UNKNOWN" else b.severity
    | none => "UNKNOWN"

/-- One flat finding record, exactly the object pushed by `indexCycloneDX`. -/
structure Finding where
  dataset : String
  id : Option String
  title : String
  severity : String
  severityRank : Nat
  cvss : Option ℚ
  component : Option String
  version : Option String
  purl : Option String
  licenses : List String
  direct : Bool
  cwes : List CweVal
  urls : List String
  fixedVersions : List String
deriving DecidableEq, Repr

/-- Field `fixedVersions` of a record: `["*"]` iff `analysis.response` is an array
containing the literal string "update", else `[]`. -/
def fixedVersionsOf (v : Vuln) : List String :=
  match v.analysis with
  | some a => if "update" ∈ a.response.getD [] then ["*"] else []
  | none => []

/-- The body of the per-vulnerability loop of `indexCycloneDX`: resolve
affects, pick the best rating, resolve the severity, then emit one finding
per target ref (or one unattributed finding for the `null` sentinel). -/
def processVuln (cm : List (String × Component)) (datasetId : String) (v : Vuln) :
    List Finding :=
  let affects := resolveAffects v.affects
  let rating := pickCVSS (ratingsOf v)
  let sev := jsToUpper (sevChain v.severity rating)
  let targets : List (Option String) := if affects.isEmpty then [none] else affects.map some
  targets.map (fun ref =>
    let c : Component :=
      match ref with
      | some r => (lookupLast cm r).getD emptyComponent
      | none => emptyComponent
    { dataset := datasetId
      id := strOrNull v.id
      title :=
        match v.description with
        | some d => if d ≠ "" then jsSlice d 200 else "Vulnerability"
        | none => "Vulnerability"
      severity := sev
      severityRank := severityOrder sev
      cvss := rating.bind (fun b => b.score)
      component := strOrNull c.name
      version := strOrNull c.version
      purl := strOrNull c.purl
      licenses := licenseNames (c.licenses.getD [])
      direct := jsToLower (c.scope.getD "") ≠ "optional" ∧ jsToLower (c.scope.getD "") ≠ "transitive"
      cwes := (v.cwes.getD []).filterMap cweExtract
      urls := truthyStrings (v.references.getD [])
      fixedVersions := fixedVersionsOf v })

/-- A CycloneDX document with every field optional.  A `none` element of
`components` or `vulnerabilities` models a malformed (nullish or
non-object) array entry, which the source skips with a warning. -/
structure CycloneDoc where
  bomFormat : Option String
  specVersion : Option String
  metadataTimestamp : Option String
  components : Option (List (Option Component))
  vulnerabilities : Option (List (Option Vuln))
deriving DecidableEq, Repr

/-- Source `validateCycloneDX`: a document with neither truthy `bomFormat` nor
truthy `specVersion` must carry a `vulnerabilities` or `components` field. -/
def validateCycloneDX (j : CycloneDoc) : Bool :=
  if ¬ strTruthy j.bomFormat ∧ ¬ strTruthy j.specVersion then
    j.vulnerabilities.isSome || j.components.isSome
  else true

/-- The component-map loop: skip malformed entries with a warning, insert
the rest in order. -/
def buildComponentMap (filePath : String) : Nat → List (Option Component) →
    List (String × Component) × List String
  | _, [] => ([], [])
  | i, none :: rest =>
      let r := buildComponentMap filePath (i + 1) rest
      (r.1, ("Invalid component at index " ++ toString i ++ " in " ++ filePath) :: r.2)
  | i, some c :: rest =>
      let r := buildComponentMap filePath (i + 1) rest
      ((componentKey c, c) :: r.1, r.2)

/-- The vulnerability loop: a malformed entry yields one warning and no
findings; a valid record yields its `processVuln` findings; processing
always continues with the next record. -/
def processVulns (cm : List (String × Component)) (datasetId filePath : String) :
    Nat → List (Option Vuln) → List Finding × List String
  | _, [] => ([], [])
  | i, none :: rest =>
      let r := processVulns cm datasetId filePath (i + 1) rest
      (r.1, ("Invalid vulnerability at index " ++ toString i ++ " in " ++ filePath) :: r.2)
  | i, some v :: rest =>
      let r := processVulns cm datasetId filePath (i + 1) rest
      (processVuln cm datasetId v ++ r.1, r.2)

/-- Per-document result of `indexCycloneDX`. -/
structure IndexResult where
  dataset : String
  created : Option String
  components : Nat
  vulnerabilities : Nat
  items : List Finding
deriving DecidableEq, Repr

/-- Source `indexCycloneDX(json, datasetId, filePath)`: throws on a document that
fails validation, otherwise returns the indexed result together with the
collected per-entry warnings. -/
def indexCycloneDX (j : CycloneDoc) (datasetId filePath : String) :
    Except String (IndexResult × List String) :=
  if validateCycloneDX j then
    let comps := j.components.getD []
    let cmWarn := buildComponentMap filePath 0 comps
    let vw := processVulns cmWarn.1 datasetId filePath 0 (j.vulnerabilities.getD [])
    .ok
      ({ dataset := datasetId
         created := strOrNull j.metadataTimestamp
         components := comps.length
         vulnerabilities := vw.1.length
         items := vw.1 }, cmWarn.2 ++ vw.2)
  else .error ("Invalid CycloneDX file " ++ filePath)

/-- The six fixed severity buckets, all initialized to 0, in source order. -/
def sevInit : List (String × Nat) :=
  [("CRITICAL", 0), ("HIGH", 0), ("MEDIUM", 0), ("LOW", 0), ("INFO", 0), ("UNKNOWN", 0)]

/-- Source `acc[s] = (acc[s] || 0) + 1`: bump an existing bucket or append a new
key, as JavaScript object assignment does. -/
def bumpBucket (m : List (String × Nat)) (k : String) : List (String × Nat) :=
  if m.any (fun p => p.1 = k) then
    m.map (fun p => if p.1 = k then (p.1, p.2 + 1) else p)
  else m ++ [(k, 1)]

/-- Source `countSeverities(items)`: reduce over the findings starting from the six
zero buckets, bucketing by `(it.severity || "UNKNOWN").toUpperCase()`. -/
def countSeverities (items : List Finding) : List (String × Nat) :=
  items.foldl
    (fun acc it => bumpBucket acc (jsToUpper (if it.severity = "" then "UNKNOWN" else it.severity)))
    sevInit

/-- Decidable rendering of the literal pattern `^CVE-\d{4}-\d{4,}$`. -/
def isCveId (s : String) : Bool :=
  match s.toList with
  | 'C' :: 'V' :: 'E' :: '-' :: rest =>
      let y := rest.take 4
      (y.length = 4 && y.all Char.isDigit) &&
      (match rest.drop 4 with
       | '-' :: seq => decide (seq.length ≥ 4) && seq.all Char.isDigit
       | _ => false)
  | _ => false

/-- Accumulator of the `buildTopCVEs` grouping map, one per CVE id; the
`datasets` list keeps first-insertion order of a JavaScript `Set`. -/
structure CveAcc where
  id : String
  count : Nat
  datasets : List String
  maxCVSS : Option ℚ
  worstSeverityRank : Int
deriving DecidableEq, Repr

/-- The fresh accumulator `{ id, count:0, datasets:Set, maxCVSS:null,
worstSeverityRank:-1 }`. -/
def newAcc (id : String) : CveAcc :=
  ⟨id, 0, [], none, -1⟩

/-- One update of a group accumulator by a finding: bump the count, add the
dataset, take the max CVSS ignoring nulls, take the worst severity rank. -/
def updAcc (c : CveAcc) (it : Finding) : CveAcc :=
  { c with
    count := c.count + 1
    datasets := if it.dataset ∈ c.datasets then c.datasets else c.datasets ++ [it.dataset]
    maxCVSS :=
      match it.cvss with
      | some q => some (match c.maxCVSS with | some m => jsMax m q | none => q)
      | none => c.maxCVSS
    worstSeverityRank :=
      if (it.severityRank : Int) > c.worstSeverityRank then (it.severityRank : Int)
      else c.worstSeverityRank }

/-- One step of the grouping loop: findings whose id (null as "") fails the
CVE pattern are skipped; otherwise the id group is updated or created. -/
def addItem (m : List CveAcc) (it : Finding) : List CveAcc :=
  let id := it.id.getD ""
  if isCveId id then
    if m.any (fun c => c.id = id) then
      m.map (fun c => if c.id = id then updAcc c it else c)
    else m ++ [updAcc (newAcc id) it]
  else m

/-- One entry of `metrics.topCVEs`. -/
structure TopCVE where
  id : String
  count : Nat
  datasets : List String
  maxCVSS : Option ℚ
  worstSeverityRank : Int
deriving DecidableEq, Repr

/-- Sort order of the `topCVEs` comparator
`(b.worstSeverityRank - a.worstSeverityRank) || (b.count - a.count) ||
(b.maxCVSS ?? 0) - (a.maxCVSS ?? 0)`: `a` may precede `b` iff the tuple
(worstSeverityRank, count, maxCVSS with null as 0) of `a` is
lexicographically greater than or equal to that of `b`. -/
def cveLe (a b : TopCVE) : Bool :=
  decide (b.worstSeverityRank < a.worstSeverityRank) ||
    (decide (b.worstSeverityRank = a.worstSeverityRank) &&
      (decide (b.count < a.count) ||
        (decide (b.count = a.count) && jsLe (b.maxCVSS.getD 0) (a.maxCVSS.getD 0))))

/-- The comparator order as a relation, for the sortedness statements. -/
def CveOrd (a b : TopCVE) : Prop :=
  cveLe a b = true

instance : DecidableRel CveOrd := fun a b => by
  unfold CveOrd; infer_instance

/-- Source `buildTopCVEs(items)`: group by conforming CVE id, map each group to a
final entry with its datasets sorted, sort by the descending lexicographic
comparator (a stable sort, as JavaScript guarantees), and take the top 10. -/
def buildTopCVEs (items : List Finding) : List TopCVE :=
  let grouped := items.foldl addItem []
  let mapped := grouped.map (fun x =>
    { id := x.id
      count := x.count
      datasets := x.datasets.insertionSort (fun a b => strLe a b = true)
      maxCVSS := x.maxCVSS
      worstSeverityRank := x.worstSeverityRank : TopCVE })
  (mapped.insertionSort CveOrd).take 10

/-- Number of findings with a non-empty `fixedVersions` list. -/
def countWithFix (items : List Finding) : Nat :=
  (items.filter (fun it => ¬ it.fixedVersions.isEmpty)).length

/-- Fuel-driven base-2 logarithm so that the kernel can evaluate it (the
fuel is an upper bound on the argument). -/
def log2fuel : ℕ → ℕ → ℕ
  | 0, _ => 0
  | fuel + 1, n => if n ≤ 1 then 0 else log2fuel fuel (n / 2) + 1

/-- Floor of the base-2 logarithm of a natural number. -/
def natLog2 (n : ℕ) : ℕ :=
  log2fuel n n

/-- Floor of the base-2 logarithm of the fraction `n / d` (for positive
`n`, `d`): the binade the quotient falls in, decided by one cleared
comparison. -/
def floorLog2Pair (n d : ℕ) : ℤ :=
  if d * 2 ^ natLog2 n ≤ n * 2 ^ natLog2 d then (natLog2 n : ℤ) - natLog2 d
  else (natLog2 n : ℤ) - natLog2 d - 1

/-- Round `N / D` to the nearest integer, ties to even — the IEEE-754
round-to-nearest-even rule on a nonnegative quotient. -/
def nearestEven (N D : ℕ) : ℕ :=
  let q := N / D
  let r := N % D
  if 2 * r < D then q
  else if D < 2 * r then q + 1
  else if q % 2 = 0 then q else q + 1

/-- The float64 value of the quotient `N / D` of two nonnegative exact
operands, as an exact dyadic fraction (numerator, power-of-two
denominator): the 53-bit round-to-nearest-even significand of the
quotient.  The exponent range is ideal (no overflow or subnormal
rounding), which coincides with binary64 for every magnitude this
pipeline can produce. -/
def flPair (N D : ℕ) : ℕ × ℕ :=
  if N = 0 ∨ D = 0 then (0, 1)
  else
    let e : ℤ := floorLog2Pair N D - 52
    if e ≤ 0 then (nearestEven (N * 2 ^ (-e).toNat) D, 2 ^ (-e).toNat)
    else (nearestEven N (D * 2 ^ e.toNat) * 2 ^ e.toNat, 1)

/-- `Math.round` on the nonnegative exact value `N / D` of a double:
round half toward positive infinity. -/
def roundHalfUp (N D : ℕ) : ℕ :=
  (2 * N + D) / (2 * D)

/-- `Math.round(100 * (c / t))` exactly as float64 evaluates it: the
division `c / t` rounds to the nearest double, the product with 100
rounds again, and `Math.round` rounds the resulting double half-up. -/
def mathRound100Ratio (c t : ℕ) : ℕ :=
  let d1 := flPair c t
  let d2 := flPair (100 * d1.1) d1.2
  roundHalfUp d2.1 d2.2

/-- Source `items.length > 0 ? Math.round(100 * (withFix / items.length)) : 0`,
with the float64 arithmetic of the source modelled exactly (it differs
from exact rational rounding: 23 of 40 gives 57, not 58). -/
def fixAvailRate (items : List Finding) : ℤ :=
  if items.length = 0 then 0
  else (mathRound100Ratio (countWithFix items) items.length : ℤ)

/-- One entry of `snapshot.datasets`. -/
structure DatasetSummary where
  id : String
  created : Option String
  components : Nat
  vulnerabilities : Nat
  severityCounts : List (String × Nat)
deriving DecidableEq, Repr

/-- The per-dataset summary built in `main`. -/
def summarize (d : IndexResult) : DatasetSummary :=
  { id := d.dataset
    created := d.created
    components := d.components
    vulnerabilities := d.vulnerabilities
    severityCounts := countSeverities d.items }

/-- Shape of `snapshot.overall`. -/
structure Overall where
  total : Nat
  severityCounts : List (String × Nat)
deriving DecidableEq, Repr

/-- Shape of `snapshot.metrics`. -/
structure Metrics where
  fixAvailabilityRate : ℤ
  topCVEs : List TopCVE
deriving DecidableEq, Repr

/-- The final snapshot artifact. -/
structure Snapshot where
  generatedAt : String
  datasets : List DatasetSummary
  items : List Finding
  overall : Overall
  metrics : Metrics
deriving DecidableEq, Repr

/-- The empty snapshot written when no input files are found. -/
def emptySnapshot (now : String) : Snapshot :=
  { generatedAt := now
    datasets := []
    items := []
    overall := { total := 0, severityCounts := sevInit }
    metrics := { fixAvailabilityRate := 0, topCVEs := [] } }

/-- Snapshot assembly from the processed per-document results: concatenate
items in processing order, sort the dataset summaries by id, and compute
the overall counts and metrics. -/
def assembleSnapshot (now : String) (datasets : List IndexResult) : Snapshot :=
  let items := datasets.flatMap (fun d => d.items)
  { generatedAt := now
    datasets := (datasets.map summarize).insertionSort (fun a b => strLe a.id b.id = true)
    items := items
    overall := { total := items.length, severityCounts := countSeverities items }
    metrics := { fixAvailabilityRate := fixAvailRate items, topCVEs := buildTopCVEs items } }

/-- One discovered input file: its JSON either fails to read or parse, or
decodes to a CycloneDX-shaped document. -/
inductive DocInput where
  | unreadable
  | doc (j : CycloneDoc)
deriving DecidableEq, Repr

/-- Source `rel.split("/")[0] || "unknown"`: the dataset id of a file path. -/
def datasetIdOf (rel : String) : String :=
  let head := String.mk (rel.data.takeWhile (fun c => c ≠ '/'))
  if head = "" then "unknown" else head

/-- The per-file loop of `main`: unreadable files and documents rejected by
`indexCycloneDX` are recorded as errors and skipped; the rest produce
per-document results in file order. -/
def processFiles : List (String × DocInput) → List IndexResult × List String
  | [] => ([], [])
  | (rel, .unreadable) :: rest =>
      let r := processFiles rest
      (r.1, (rel ++ ": Failed to read or parse JSON") :: r.2)
  | (rel, .doc j) :: rest =>
      let r := processFiles rest
      match indexCycloneDX j (datasetIdOf rel) rel with
      | .ok res => (res.1 :: r.1, r.2)
      | .error e => (r.1, (rel ++ ": " ++ e) :: r.2)

/-- Source `main` up to file discovery and output writing: zero discovered files
yield the empty snapshot; zero successfully processed documents are a fatal
error; otherwise the snapshot is assembled from the processed results. -/
def runPipeline (now : String) (files : List (String × DocInput)) : Except String Snapshot :=
  if files.isEmpty then .ok (emptySnapshot now)
  else
    let dr := processFiles files
    if dr.1.isEmpty then .error "No valid SBOM files were processed. Check errors above."
    else .ok (assembleSnapshot now dr.1)

/-! ### Helper lemmas -/

/-- The six severity enumeration values of the specification. -/
def sixSeverities : List String :=
  ["CRITICAL", "HIGH", "MEDIUM", "LOW", "INFO", "UNKNOWN"]

theorem processVuln_mem {cm : List (String × Component)} {ds : String} {v : Vuln}
    {f : Finding} (hf : f ∈ processVuln cm ds v) :
    f.dataset = ds ∧
    f.id = strOrNull v.id ∧
    f.severity = jsToUpper (sevChain v.severity (pickCVSS (ratingsOf v))) ∧
    f.severityRank = severityOrder (jsToUpper (sevChain v.severity (pickCVSS (ratingsOf v)))) ∧
    f.cvss = (pickCVSS (ratingsOf v)).bind (fun b => b.score) ∧
    f.fixedVersions = fixedVersionsOf v := by
  simp only [processVuln, List.mem_map] at hf
  obtain ⟨ref, _, rfl⟩ := hf
  exact ⟨rfl, rfl, rfl, rfl, rfl, rfl⟩

theorem processVuln_length (cm : List (String × Component)) (ds : String) (v : Vuln) :
    (processVuln cm ds v).length = max 1 (resolveAffects v.affects).length := by
  simp only [processVuln, List.length_map]
  cases h : resolveAffects v.affects with
  | nil => simp
  | cons a as => simp [Nat.max_eq_right (Nat.succ_le_succ (Nat.zero_le _))]

/-! ### C1 -/

/-- C1: for every vulnerability record processed from a document, the
normalizer emits exactly `max 1 |affects|` findings, where the affects list
is the list of component refs resolved per the specification (step 1 of the
normalizer); when that list is empty the single finding is unattributed
(component, version and purl are all null). -/
theorem c1_fanout (cm : List (String × Component)) (ds : String) (v : Vuln) :
    (processVuln cm ds v).length = max 1 (resolveAffects v.affects).length ∧
    (resolveAffects v.affects = [] →
      ∀ f ∈ processVuln cm ds v, f.component = none ∧ f.version = none ∧ f.purl = none) := by
  refine ⟨processVuln_length cm ds v, fun h f hf => ?_⟩
  simp only [processVuln, h, List.isEmpty_nil, if_pos, List.map_cons, List.map_nil,
    List.mem_singleton] at hf
  subst hf
  exact ⟨rfl, rfl, rfl⟩

/-- C1 witness: a record with no affects yields exactly one unattributed
finding. -/
theorem c1_fanout_witness :
    (processVuln [] "d" emptyVuln).length = max 1 (resolveAffects emptyVuln.affects).length ∧
    (∀ f ∈ processVuln [] "d" emptyVuln,
      f.component = none ∧ f.version = none ∧ f.purl = none) :=
  ⟨(c1_fanout [] "d" emptyVuln).1, fun f hf => (c1_fanout [] "d" emptyVuln).2 rfl f hf⟩

/-! ### C2 -/

/-- C2 counterexample: the free-text severity "moderate" produces a finding
whose severity "MODERATE" is not one of the six enumeration values, so the
claim that the severity is always one of the six fails on the code. -/
theorem c2_enum_counterexample :
    (processVuln [] "d" { emptyVuln with severity := some "moderate" }).map
        (fun f => f.severity) = ["MODERATE"] ∧
    "MODERATE" ∉ sixSeverities := by
  constructor
  · rfl
  · decide

/-- C2 amended: the severity of every finding equals the uppercased explicit
vulnerability severity when that is present and non-empty, else the
uppercased best-rating severity when that is non-empty, else "UNKNOWN";
the value lies in the six enumeration values exactly when this resolved
text does — unrecognized free text passes through uppercased. -/
theorem c2_severity_resolution (cm : List (String × Component)) (ds : String) (v : Vuln)
    (f : Finding) (hf : f ∈ processVuln cm ds v) :
    f.severity =
      (if strTruthy v.severity then jsToUpper (v.severity.getD "")
       else
         match pickCVSS (ratingsOf v) with
         | some b => if b.severity = "" then "UNKNOWN" else jsToUpper b.severity
         | none => "UNKNOWN") ∧
    (f.severity ∈ sixSeverities ↔
      jsToUpper (sevChain v.severity (pickCVSS (ratingsOf v))) ∈ sixSeverities) := by
  obtain ⟨-, -, hsev, -, -, -⟩ := processVuln_mem hf
  refine ⟨?_, by rw [hsev]⟩
  rw [hsev, sevChain.eq_def]
  by_cases h : strTruthy v.severity
  · rw [if_pos h, if_pos h]
  · rw [if_neg h, if_neg h]
    cases hp : pickCVSS (ratingsOf v) with
    | none => rfl
    | some b =>
        show jsToUpper (if b.severity = "" then "UNKNOWN" else b.severity) =
          if b.severity = "" then "UNKNOWN" else jsToUpper b.severity
        by_cases hb : b.severity = ""
        · rw [if_pos hb, if_pos hb]
          decide
        · rw [if_neg hb, if_neg hb]

/-- C2 witness: a record with an explicit lowercase severity "critical"
resolves to "CRITICAL", which is one of the six enumeration values. -/
theorem c2_severity_resolution_witness :
    (processVuln [] "d" { emptyVuln with severity := some "critical" }).length = 1 ∧
    ∀ f ∈ processVuln [] "d" { emptyVuln with severity := some "critical" },
      f.severity = "CRITICAL" ∧ f.severity ∈ sixSeverities := by
  refine ⟨rfl, fun f hf => ?_⟩
  have h := (c2_severity_resolution [] "d" { emptyVuln with severity := some "critical" } f hf).1
  rw [h]
  exact ⟨by decide, by decide⟩

/-! ### C8 -/

/-- C8: for every finding, `fixedVersions` is `["*"]` exactly when the
record field `analysis.response` is an array containing the literal string
"update", and `[]` otherwise; the field is fully determined by
`analysis.response` and nothing else. -/
theorem c8_fixed_versions (cm : List (String × Component)) (ds : String) (v : Vuln)
    (f : Finding) (hf : f ∈ processVuln cm ds v) :
    (f.fixedVersions = ["*"] ↔
      ∃ a, v.analysis = some a ∧ "update" ∈ a.response.getD []) ∧
    (f.fixedVersions = ["*"] ∨ f.fixedVersions = []) ∧
    f.fixedVersions = fixedVersionsOf v := by
  obtain ⟨-, -, -, -, -, hfix⟩ := processVuln_mem hf
  obtain ⟨vid, vdesc, vsev, vrat, vcvss, vaff, vcwes, vrefs, vana⟩ := v
  cases vana with
  | none =>
      rw [hfix]
      refine ⟨⟨fun h => List.noConfusion h, ?_⟩, Or.inr rfl, rfl⟩
      rintro ⟨a, ha2, -⟩
      exact Option.noConfusion ha2
  | some a =>
      by_cases hu : "update" ∈ a.response.getD []
      · rw [hfix, show fixedVersionsOf ⟨vid, vdesc, vsev, vrat, vcvss, vaff, vcwes, vrefs,
          some a⟩ = if "update" ∈ a.response.getD [] then ["*"] else [] from rfl, if_pos hu]
        exact ⟨⟨fun _ => ⟨a, rfl, hu⟩, fun _ => rfl⟩, Or.inl rfl, rfl⟩
      · rw [hfix, show fixedVersionsOf ⟨vid, vdesc, vsev, vrat, vcvss, vaff, vcwes, vrefs,
          some a⟩ = if "update" ∈ a.response.getD [] then ["*"] else [] from rfl, if_neg hu]
        refine ⟨⟨fun h => absurd h (by decide), ?_⟩, Or.inr rfl, rfl⟩
        rintro ⟨a2, ha2, hm⟩
        rw [Option.some_inj] at ha2
        exact absurd (ha2 ▸ hm) hu

/-- C8 witness: `analysis.response` containing "update" yields
`fixedVersions = ["*"]`. -/
theorem c8_fixed_versions_witness :
    ∃ f ∈ processVuln [] "d" { emptyVuln with analysis := some ⟨some ["update", "workaround"]⟩ },
      f.fixedVersions = ["*"] := by
  refine ⟨(processVuln [] "d"
      { emptyVuln with analysis := some ⟨some ["update", "workaround"]⟩ }).head (by decide),
    List.head_mem _, ?_⟩
  exact ((c8_fixed_versions [] "d" _ _ (List.head_mem _)).1).mpr ⟨_, rfl, by decide⟩

/-! ### C6 -/

/-- C6 counterexample: a document with every optional field absent is
rejected by validation and the normalizer raises instead of completing with
defaults, so the unconditional claim fails on the code. -/
theorem c6_counterexample :
    indexCycloneDX ⟨none, none, none, none, none⟩ "ds" "f" =
      Except.error "Invalid CycloneDX file f" := rfl

/-- C6 amended: for every document that passes basic CycloneDX shape
validation, the normalizer completes without raising; a record with every
optional field absent yields the fully-defaulted finding ("Vulnerability"
title, "UNKNOWN" severity, rank 0, null id/cvss/component fields, empty
lists, direct true); a dangling affects ref degrades to the same all-null
component fields instead of raising. -/
theorem c6_defaults :
    (∀ (j : CycloneDoc) (ds fp : String), validateCycloneDX j = true →
      ∃ res, indexCycloneDX j ds fp = Except.ok res) ∧
    (∀ (cm : List (String × Component)) (ds : String),
      processVuln cm ds emptyVuln =
        [{ dataset := ds, id := none, title := "Vulnerability", severity := "UNKNOWN",
           severityRank := 0, cvss := none, component := none, version := none, purl := none,
           licenses := [], direct := true, cwes := [], urls := [], fixedVersions := [] }]) ∧
    (∀ (ds r : String), r ≠ "" →
      processVuln [] ds { emptyVuln with affects := some [some r] } =
        [{ dataset := ds, id := none, title := "Vulnerability", severity := "UNKNOWN",
           severityRank := 0, cvss := none, component := none, version := none, purl := none,
           licenses := [], direct := true, cwes := [], urls := [], fixedVersions := [] }]) := by
  refine ⟨fun j ds fp h => ?_, fun cm ds => rfl, fun ds r hr => ?_⟩
  · rw [indexCycloneDX, if_pos h]
    exact ⟨_, rfl⟩
  · have ha : resolveAffects (some [some r]) = [r] := by
      simp [resolveAffects, truthyStrings, hr]
    simp only [processVuln, ha, List.isEmpty_cons, List.map_cons, List.map_nil]
    rfl

/-- C6 witness: instances of each conjunct at concrete inputs. -/
theorem c6_defaults_witness :
    (∃ res, indexCycloneDX ⟨some "CycloneDX", none, none, none, none⟩ "ds" "f" =
      Except.ok res) ∧
    processVuln [] "ds" emptyVuln =
      [{ dataset := "ds", id := none, title := "Vulnerability", severity := "UNKNOWN",
         severityRank := 0, cvss := none, component := none, version := none, purl := none,
         licenses := [], direct := true, cwes := [], urls := [], fixedVersions := [] }] ∧
    processVuln [] "ds" { emptyVuln with affects := some [some "pkg:npm/x@1"] } =
      [{ dataset := "ds", id := none, title := "Vulnerability", severity := "UNKNOWN",
         severityRank := 0, cvss := none, component := none, version := none, purl := none,
         licenses := [], direct := true, cwes := [], urls := [], fixedVersions := [] }] :=
  ⟨c6_defaults.1 ⟨some "CycloneDX", none, none, none, none⟩ "ds" "f" rfl,
   c6_defaults.2.1 [] "ds",
   c6_defaults.2.2 "ds" "pkg:npm/x@1" (by decide)⟩

/-! ### C3 -/

theorem processVulns_spec (cm : List (String × Component)) (ds fp : String) :
    ∀ (i : Nat) (l : List (Option Vuln)),
      (processVulns cm ds fp i l).1 = (l.filterMap id).flatMap (processVuln cm ds) ∧
      (processVulns cm ds fp i l).2.length = (l.filter Option.isNone).length := by
  intro i l
  induction l generalizing i with
  | nil => exact ⟨rfl, rfl⟩
  | cons hd tl ih =>
      cases hd with
      | none =>
          refine ⟨?_, ?_⟩
          · simpa [processVulns] using (ih (i + 1)).1
          · simpa [processVulns, List.filter] using (ih (i + 1)).2
      | some v =>
          refine ⟨?_, ?_⟩
          · simpa [processVulns] using congrArg (processVuln cm ds v ++ ·) (ih (i + 1)).1
          · simpa [processVulns, List.filter] using (ih (i + 1)).2

/-- C3: for every document passing shape validation — in particular any
document whose vulnerabilities array mixes valid records with malformed
(non-object) entries — the normalizer returns normally (no exception
escapes), its items are exactly the concatenated findings of the valid
records in order, and it records one diagnostic per skipped malformed
vulnerability entry (besides those for malformed component entries). -/
theorem c3_malformed_isolation (j : CycloneDoc) (ds fp : String)
    (hv : validateCycloneDX j = true) :
    ∃ r w, indexCycloneDX j ds fp = Except.ok (r, w) ∧
      r.items = ((j.vulnerabilities.getD []).filterMap id).flatMap
        (processVuln (buildComponentMap fp 0 (j.components.getD [])).1 ds) ∧
      w.length = (buildComponentMap fp 0 (j.components.getD [])).2.length +
        ((j.vulnerabilities.getD []).filter Option.isNone).length := by
  rw [indexCycloneDX, if_pos hv]
  refine ⟨_, _, rfl, ?_, ?_⟩
  · exact (processVulns_spec _ ds fp 0 _).1
  · rw [List.length_append, (processVulns_spec _ ds fp 0 _).2]

/-- C3 witness: a document with one valid record between two malformed
entries yields exactly the finding of the valid record and two diagnostics. -/
theorem c3_malformed_isolation_witness :
    ∃ r w,
      indexCycloneDX
          ⟨some "CycloneDX", none, none, none,
            some [none, some { emptyVuln with id := some "CVE-2024-0001" }, none]⟩ "ds" "f" =
        Except.ok (r, w) ∧
      r.items = [{ dataset := "ds", id := some "CVE-2024-0001", title := "Vulnerability",
                   severity := "UNKNOWN", severityRank := 0, cvss := none, component := none,
                   version := none, purl := none, licenses := [], direct := true, cwes := [],
                   urls := [], fixedVersions := [] }] ∧
      w.length = 2 := by
  obtain ⟨r, w, h1, h2, h3⟩ := c3_malformed_isolation
    ⟨some "CycloneDX", none, none, none,
      some [none, some { emptyVuln with id := some "CVE-2024-0001" }, none]⟩ "ds" "f" rfl
  refine ⟨r, w, h1, ?_, ?_⟩
  · rw [h2]
    rfl
  · rw [h3]
    rfl

/-! ### C4 -/

/-- C4 counterexample: one readable document with zero vulnerabilities
yields zero findings, yet the datasets list of the snapshot is not empty — it
carries one summary — so the claim that a zero-findings run produces
`datasets = []` fails on the code. -/
theorem c4_counterexample :
    ∃ s, runPipeline "t" [("stable/x.cyclonedx.json",
        DocInput.doc ⟨some "CycloneDX", some "1.4", none, some [], some []⟩)] =
      Except.ok s ∧
      s.items = [] ∧ s.overall.total = 0 ∧ s.datasets ≠ [] := by
  refine ⟨_, rfl, rfl, rfl, ?_⟩
  decide

/-- C4 amended: a run over zero documents produces the structurally valid
empty snapshot (datasets [], items [], total 0, all six buckets 0, fix rate
0, top CVEs []) as a success, distinguishable from the error outcome; any
successful run with zero findings still has total 0, the six zero buckets,
fix rate 0 and empty top CVEs, though its datasets list keeps one summary
per processed document. -/
theorem c4_empty_snapshot :
    (∀ now : String, runPipeline now [] = Except.ok (emptySnapshot now) ∧
      (emptySnapshot now).datasets = [] ∧ (emptySnapshot now).items = [] ∧
      (emptySnapshot now).overall.total = 0 ∧
      (emptySnapshot now).overall.severityCounts = sevInit ∧
      (emptySnapshot now).metrics.fixAvailabilityRate = 0 ∧
      (emptySnapshot now).metrics.topCVEs = []) ∧
    (∀ (now : String) (files : List (String × DocInput)) (s : Snapshot),
      runPipeline now files = Except.ok s → s.items = [] →
      s.overall.total = 0 ∧ s.overall.severityCounts = sevInit ∧
      s.metrics.fixAvailabilityRate = 0 ∧ s.metrics.topCVEs = []) := by
  constructor
  · intro now
    exact ⟨rfl, rfl, rfl, rfl, rfl, rfl, rfl⟩
  · intro now files s h hitems
    simp only [runPipeline] at h
    by_cases hf : files.isEmpty
    · rw [if_pos hf] at h
      cases h
      exact ⟨rfl, rfl, rfl, rfl⟩
    · rw [if_neg hf] at h
      by_cases hd : (processFiles files).1.isEmpty
      · rw [if_pos hd] at h
        exact Except.noConfusion h
      · rw [if_neg hd] at h
        cases h
        have e : (assembleSnapshot now (processFiles files).1).items = [] := hitems
        refine ⟨?_, ?_, ?_, ?_⟩
        · show (assembleSnapshot now (processFiles files).1).items.length = 0
          rw [e]
          rfl
        · show countSeverities (assembleSnapshot now (processFiles files).1).items = sevInit
          rw [e]
          rfl
        · show fixAvailRate (assembleSnapshot now (processFiles files).1).items = 0
          rw [e]
          rfl
        · show buildTopCVEs (assembleSnapshot now (processFiles files).1).items = []
          rw [e]
          rfl

/-- C4 witness: the empty-input conjunct at a concrete clock and the
zero-findings conjunct at a concrete document. -/
theorem c4_empty_snapshot_witness :
    runPipeline "t" [] = Except.ok (emptySnapshot "t") ∧
    (∃ s, runPipeline "t" [("stable/x.cyclonedx.json",
        DocInput.doc ⟨some "CycloneDX", some "1.4", none, some [], some []⟩)] =
      Except.ok s ∧
      s.overall.total = 0 ∧ s.overall.severityCounts = sevInit ∧
      s.metrics.fixAvailabilityRate = 0 ∧ s.metrics.topCVEs = []) := by
  have h : runPipeline "t" [("stable/x.cyclonedx.json",
      DocInput.doc ⟨some "CycloneDX", some "1.4", none, some [], some []⟩)] =
    Except.ok (assembleSnapshot "t" (processFiles [("stable/x.cyclonedx.json",
      DocInput.doc ⟨some "CycloneDX", some "1.4", none, some [], some []⟩)]).1) := rfl
  exact ⟨(c4_empty_snapshot.1 "t").1, _, h,
    c4_empty_snapshot.2 "t" [("stable/x.cyclonedx.json",
      DocInput.doc ⟨some "CycloneDX", some "1.4", none, some [], some []⟩)] _ h rfl⟩

/-! ### C10 -/

/-- C10: two runs over the same input files agree on items, datasets,
overall counts and metrics regardless of the clock value — only
`generatedAt` can differ between runs, so with a frozen clock the pipeline
is idempotent on unchanged inputs. -/
theorem c10_clock_independence (n1 n2 : String) (files : List (String × DocInput))
    (s1 s2 : Snapshot) (h1 : runPipeline n1 files = Except.ok s1)
    (h2 : runPipeline n2 files = Except.ok s2) :
    s1.items = s2.items ∧ s1.datasets = s2.datasets ∧ s1.overall = s2.overall ∧
    s1.metrics = s2.metrics := by
  simp only [runPipeline] at h1 h2
  by_cases hf : files.isEmpty
  · rw [if_pos hf] at h1 h2
    cases h1
    cases h2
    exact ⟨rfl, rfl, rfl, rfl⟩
  · rw [if_neg hf] at h1 h2
    by_cases hd : (processFiles files).1.isEmpty
    · rw [if_pos hd] at h1
      exact Except.noConfusion h1
    · rw [if_neg hd] at h1 h2
      cases h1
      cases h2
      exact ⟨rfl, rfl, rfl, rfl⟩

/-- C10 witness: two runs with different clock strings over the same
one-document input agree on everything but `generatedAt`. -/
theorem c10_clock_independence_witness :
    ∃ s1 s2,
      runPipeline "2024-01-01" [("stable/x.cyclonedx.json",
        DocInput.doc ⟨some "CycloneDX", none, none, none,
          some [some { emptyVuln with id := some "CVE-2024-0001" }]⟩)] = Except.ok s1 ∧
      runPipeline "2025-06-30" [("stable/x.cyclonedx.json",
        DocInput.doc ⟨some "CycloneDX", none, none, none,
          some [some { emptyVuln with id := some "CVE-2024-0001" }]⟩)] = Except.ok s2 ∧
      s1.items = s2.items ∧ s1.datasets = s2.datasets ∧ s1.overall = s2.overall ∧
      s1.metrics = s2.metrics := by
  have h1 : runPipeline "2024-01-01" [("stable/x.cyclonedx.json",
      DocInput.doc ⟨some "CycloneDX", none, none, none,
        some [some { emptyVuln with id := some "CVE-2024-0001" }]⟩)] =
    Except.ok (assembleSnapshot "2024-01-01" (processFiles [("stable/x.cyclonedx.json",
      DocInput.doc ⟨some "CycloneDX", none, none, none,
        some [some { emptyVuln with id := some "CVE-2024-0001" }]⟩)]).1) := rfl
  have h2 : runPipeline "2025-06-30" [("stable/x.cyclonedx.json",
      DocInput.doc ⟨some "CycloneDX", none, none, none,
        some [some { emptyVuln with id := some "CVE-2024-0001" }]⟩)] =
    Except.ok (assembleSnapshot "2025-06-30" (processFiles [("stable/x.cyclonedx.json",
      DocInput.doc ⟨some "CycloneDX", none, none, none,
        some [some { emptyVuln with id := some "CVE-2024-0001" }]⟩)]).1) := rfl
  exact ⟨_, _, h1, h2,
    c10_clock_independence "2024-01-01" "2025-06-30" [("stable/x.cyclonedx.json",
      DocInput.doc ⟨some "CycloneDX", none, none, none,
        some [some { emptyVuln with id := some "CVE-2024-0001" }]⟩)] _ _ h1 h2⟩

/-! ### C9 -/

theorem log2fuel_spec : ∀ (fuel n : ℕ), 0 < n → n ≤ fuel →
    2 ^ log2fuel fuel n ≤ n ∧ n < 2 ^ (log2fuel fuel n + 1) := by
  intro fuel
  induction fuel with
  | zero => intro n h1 h2; omega
  | succ f ih =>
      intro n h1 h2
      rw [log2fuel]
      by_cases hle : n ≤ 1
      · rw [if_pos hle]
        constructor
        · simpa using h1
        · simpa using by omega
      · rw [if_neg hle]
        have h3 : 0 < n / 2 := by omega
        have h4 : n / 2 ≤ f := by omega
        obtain ⟨ha, hb⟩ := ih (n / 2) h3 h4
        have e1 : 2 ^ (log2fuel f (n / 2) + 1) = 2 * 2 ^ log2fuel f (n / 2) := by ring
        have e2 : 2 ^ (log2fuel f (n / 2) + 1 + 1) = 2 * 2 ^ (log2fuel f (n / 2) + 1) := by ring
        constructor
        · rw [e1]; omega
        · rw [e2]; omega

theorem natLog2_spec (n : ℕ) (hn : 0 < n) :
    2 ^ natLog2 n ≤ n ∧ n < 2 ^ (natLog2 n + 1) :=
  log2fuel_spec n n hn le_rfl

theorem floorLog2Pair_spec (n d : ℕ) (hn : 0 < n) (hd : 0 < d) :
    (2 : ℚ) ^ floorLog2Pair n d * d ≤ n ∧ (n : ℚ) < 2 ^ (floorLog2Pair n d + 1) * d := by
  obtain ⟨ha1, ha2⟩ := natLog2_spec n hn
  obtain ⟨hb1, hb2⟩ := natLog2_spec d hd
  have h2 : (0 : ℚ) < 2 := by norm_num
  have hbpos : (0 : ℚ) < 2 ^ natLog2 d := by positivity
  have hQa1 : (2 : ℚ) ^ natLog2 n ≤ n := by exact_mod_cast ha1
  have hQa2 : (n : ℚ) < 2 ^ (natLog2 n + 1) := by exact_mod_cast ha2
  have hQb1 : (2 : ℚ) ^ natLog2 d ≤ d := by exact_mod_cast hb1
  have hQb2 : (d : ℚ) < 2 ^ (natLog2 d + 1) := by exact_mod_cast hb2
  rw [floorLog2Pair]
  by_cases h : d * 2 ^ natLog2 n ≤ n * 2 ^ natLog2 d
  · rw [if_pos h]
    have hQ : (d : ℚ) * 2 ^ natLog2 n ≤ n * 2 ^ natLog2 d := by exact_mod_cast h
    constructor
    · rw [zpow_sub₀ (by norm_num : (2:ℚ) ≠ 0), zpow_natCast, zpow_natCast,
        div_mul_eq_mul_div, div_le_iff₀ hbpos]
      linarith
    · have he : ((natLog2 n : ℤ) - natLog2 d + 1) = ((natLog2 n + 1 : ℕ) : ℤ) - natLog2 d := by
        push_cast
        ring
      rw [he, zpow_sub₀ (by norm_num : (2:ℚ) ≠ 0), zpow_natCast, zpow_natCast,
        div_mul_eq_mul_div, lt_div_iff₀ hbpos]
      calc (n : ℚ) * 2 ^ natLog2 d < 2 ^ (natLog2 n + 1) * 2 ^ natLog2 d :=
            mul_lt_mul_of_pos_right hQa2 hbpos
        _ ≤ 2 ^ (natLog2 n + 1) * d := by
            have hpow : (0:ℚ) < 2 ^ (natLog2 n + 1) := by positivity
            nlinarith [hQb1]
  · rw [if_neg h]
    have hQ : (n : ℚ) * 2 ^ natLog2 d < d * 2 ^ natLog2 n := by
      exact_mod_cast Nat.lt_of_not_le h
    constructor
    · have he : ((natLog2 n : ℤ) - natLog2 d - 1) + ((natLog2 d : ℤ) + 1) = natLog2 n := by ring
      have hlt : (2 : ℚ) ^ ((natLog2 n : ℤ) - natLog2 d - 1) * d <
          2 ^ ((natLog2 n : ℤ) - natLog2 d - 1) * 2 ^ ((natLog2 d : ℤ) + 1) := by
        have hpos : (0:ℚ) < 2 ^ ((natLog2 n : ℤ) - natLog2 d - 1) := zpow_pos h2 _
        have : (2:ℚ) ^ ((natLog2 d : ℤ) + 1) = 2 ^ (natLog2 d + 1) := by
          rw [show ((natLog2 d : ℤ) + 1) = ((natLog2 d + 1 : ℕ) : ℤ) by push_cast; ring,
            zpow_natCast]
        rw [this]
        exact mul_lt_mul_of_pos_left hQb2 hpos
      have heq : (2 : ℚ) ^ ((natLog2 n : ℤ) - natLog2 d - 1) * 2 ^ ((natLog2 d : ℤ) + 1) =
          2 ^ natLog2 n := by
        rw [← zpow_add₀ (by norm_num : (2:ℚ) ≠ 0), he, zpow_natCast]
      exact le_of_lt (lt_of_lt_of_le (heq ▸ hlt) hQa1)
    · have hbpos2 : (0:ℚ) < 2 ^ natLog2 d := hbpos
      rw [show ((natLog2 n : ℤ) - natLog2 d - 1 + 1) = (natLog2 n : ℤ) - natLog2 d by ring,
        zpow_sub₀ (by norm_num : (2:ℚ) ≠ 0), zpow_natCast, zpow_natCast,
        div_mul_eq_mul_div, lt_div_iff₀ hbpos2]
      linarith

theorem nearestEven_le (N D : ℕ) (hD : 0 < D) :
    2 * D * nearestEven N D ≤ 2 * N + D := by
  have hdm : D * (N / D) + N % D = N := Nat.div_add_mod N D
  have hlt : N % D < D := Nat.mod_lt N hD
  have eq1 : 2 * D * (N / D) = 2 * (D * (N / D)) := by ring
  have eq2 : 2 * D * (N / D + 1) = 2 * (D * (N / D)) + 2 * D := by ring
  simp only [nearestEven]
  by_cases h1 : 2 * (N % D) < D
  · rw [if_pos h1, eq1]
    omega
  · rw [if_neg h1]
    have h1' : D ≤ 2 * (N % D) := Nat.le_of_not_lt h1
    by_cases h2 : D < 2 * (N % D)
    · rw [if_pos h2, eq2]
      omega
    · rw [if_neg h2]
      by_cases h3 : N / D % 2 = 0
      · rw [if_pos h3, eq1]
        omega
      · rw [if_neg h3, eq2]
        omega

theorem flPair_den_pos (N D : ℕ) : 0 < (flPair N D).2 := by
  rw [flPair]
  by_cases h : N = 0 ∨ D = 0
  · rw [if_pos h]
    exact one_pos
  · rw [if_neg h]
    simp only
    by_cases he : floorLog2Pair N D - 52 ≤ 0
    · rw [if_pos he]
      exact Nat.pos_pow_of_pos _ (by norm_num)
    · rw [if_neg he]
      exact one_pos

/-- Upper relative-error bound of one float64 rounding: the rounded value
exceeds the exact quotient by at most half an ulp, i.e. a factor of at
most `1 + 2^-53`. -/
theorem flPair_le (N D : ℕ) (hN : 0 < N) (hD : 0 < D) :
    ((flPair N D).1 : ℚ) ≤ (N : ℚ) / (D : ℚ) * (1 + 1 / 2 ^ 53) * ((flPair N D).2 : ℚ) := by
  obtain ⟨hfl1, -⟩ := floorLog2Pair_spec N D hN hD
  have hDQ : (0:ℚ) < (D:ℚ) := by exact_mod_cast hD
  have hNQ : (0:ℚ) < (N:ℚ) := by exact_mod_cast hN
  rw [flPair, if_neg (by omega)]
  simp only
  by_cases he : floorLog2Pair N D - 52 ≤ 0
  · rw [if_pos he]
    set k : ℕ := (-(floorLog2Pair N D - 52)).toNat with hkdef
    have hk : (k : ℤ) = 52 - floorLog2Pair N D := by
      rw [hkdef, Int.toNat_of_nonneg (by omega)]
      ring
    have hm := nearestEven_le (N * 2 ^ k) D hD
    have hmQ : 2 * (D:ℚ) * nearestEven (N * 2 ^ k) D ≤ 2 * ((N:ℚ) * 2 ^ k) + D := by
      exact_mod_cast hm
    have key : (2:ℚ) ^ (52:ℕ) * D ≤ (N:ℚ) * 2 ^ k := by
      have h1 := mul_le_mul_of_nonneg_right hfl1 (zpow_pos (by norm_num : (0:ℚ) < 2) (k:ℤ)).le
      have h2 : (2:ℚ) ^ floorLog2Pair N D * (D:ℚ) * 2 ^ (k:ℤ) =
          2 ^ (floorLog2Pair N D + (k:ℤ)) * D := by
        rw [mul_right_comm, ← zpow_add₀ (by norm_num : (2:ℚ) ≠ 0)]
      have h3 : floorLog2Pair N D + (k:ℤ) = ((52:ℕ):ℤ) := by push_cast; omega
      rw [h2, h3, zpow_natCast, zpow_natCast] at h1
      exact h1
    rw [div_mul_eq_mul_div, div_mul_eq_mul_div, le_div_iff₀ hDQ]
    push_cast
    linarith [hmQ, key]
  · rw [if_neg he]
    set k : ℕ := (floorLog2Pair N D - 52).toNat with hkdef
    have hk : (k : ℤ) = floorLog2Pair N D - 52 := by
      rw [hkdef, Int.toNat_of_nonneg (by omega)]
    have hDk : 0 < D * 2 ^ k := by positivity
    have hm := nearestEven_le N (D * 2 ^ k) hDk
    have hmQ : 2 * ((D:ℚ) * 2 ^ k) * nearestEven N (D * 2 ^ k) ≤ 2 * (N:ℚ) + D * 2 ^ k := by
      exact_mod_cast hm
    have key : (2:ℚ) ^ (52:ℕ) * (D * 2 ^ k) ≤ (N:ℚ) := by
      have h2 : (2:ℚ) ^ floorLog2Pair N D = 2 ^ (((52:ℕ):ℤ) + (k:ℤ)) := by
        congr 1
        push_cast
        omega
      have h3 : (2:ℚ) ^ (((52:ℕ):ℤ) + (k:ℤ)) = 2 ^ (52:ℕ) * 2 ^ k := by
        rw [zpow_add₀ (by norm_num : (2:ℚ) ≠ 0), zpow_natCast, zpow_natCast]
      have h1 := hfl1
      rw [h2, h3] at h1
      calc (2:ℚ) ^ (52:ℕ) * ((D:ℚ) * 2 ^ k) = 2 ^ (52:ℕ) * 2 ^ k * D := by ring
        _ ≤ (N:ℚ) := h1
    rw [div_mul_eq_mul_div, div_mul_eq_mul_div, le_div_iff₀ hDQ]
    push_cast
    linarith [hmQ, key]

theorem roundHalfUp_le (N D : ℕ) (hD : 0 < D) (h : (N:ℚ) < 201 / 2 * D) :
    roundHalfUp N D ≤ 100 := by
  rw [roundHalfUp]
  have hNat : 2 * N < 201 * D := by
    have : (2 * N : ℚ) < 201 * D := by linarith
    exact_mod_cast this
  have hdiv : (2 * N + D) / (2 * D) < 101 := by
    rw [Nat.div_lt_iff_lt_mul (by omega : 0 < 2 * D)]
    omega
  omega

theorem mathRound100Ratio_le (c t : ℕ) (hct : c ≤ t) (ht : 0 < t) :
    mathRound100Ratio c t ≤ 100 := by
  by_cases hc : c = 0
  · subst hc
    have h1 : flPair 0 t = (0, 1) := by rw [flPair, if_pos (Or.inl rfl)]
    have : mathRound100Ratio 0 t = 0 := by
      rw [mathRound100Ratio, h1]
      rfl
    omega
  · have hc' : 0 < c := Nat.pos_of_ne_zero hc
    have hden1 : 0 < (flPair c t).2 := flPair_den_pos c t
    by_cases h0 : (flPair c t).1 = 0
    · have h1 : flPair (100 * (flPair c t).1) (flPair c t).2 = (0, 1) := by
        rw [h0, flPair, if_pos (Or.inl rfl)]
      have : mathRound100Ratio c t = 0 := by
        rw [mathRound100Ratio, h1]
        rfl
      omega
    · have hN2 : 0 < 100 * (flPair c t).1 := by
        have := Nat.pos_of_ne_zero h0
        omega
      have hL1 := flPair_le c t hc' ht
      have hL2 := flPair_le (100 * (flPair c t).1) (flPair c t).2 hN2 hden1
      have hden2 : 0 < (flPair (100 * (flPair c t).1) (flPair c t).2).2 := flPair_den_pos _ _
      have hden1Q : (0:ℚ) < ((flPair c t).2 : ℚ) := by exact_mod_cast hden1
      have hden2Q : (0:ℚ) <
          ((flPair (100 * (flPair c t).1) (flPair c t).2).2 : ℚ) := by exact_mod_cast hden2
      have htQ : (0:ℚ) < (t:ℚ) := by exact_mod_cast ht
      have hctQ : (c:ℚ) ≤ (t:ℚ) := by exact_mod_cast hct
      have hratio : (c:ℚ) / (t:ℚ) ≤ 1 := div_le_one_of_le₀ hctQ htQ.le
      have hb1 : ((flPair c t).1 : ℚ) ≤ (1 + 1 / 2 ^ 53) * ((flPair c t).2 : ℚ) := by
        calc ((flPair c t).1 : ℚ)
            ≤ (c:ℚ) / (t:ℚ) * (1 + 1 / 2 ^ 53) * ((flPair c t).2 : ℚ) := hL1
          _ ≤ 1 * (1 + 1 / 2 ^ 53) * ((flPair c t).2 : ℚ) := by
              have hpos : (0:ℚ) ≤ (1 + 1 / 2 ^ 53) * ((flPair c t).2 : ℚ) := by positivity
              nlinarith
          _ = (1 + 1 / 2 ^ 53) * ((flPair c t).2 : ℚ) := by ring
      have hb2 : ((flPair (100 * (flPair c t).1) (flPair c t).2).1 : ℚ) ≤
          (100 * (flPair c t).1 : ℚ) / ((flPair c t).2 : ℚ) * (1 + 1 / 2 ^ 53) *
            ((flPair (100 * (flPair c t).1) (flPair c t).2).2 : ℚ) := by
        exact_mod_cast hL2
      have h100 : (100 * (flPair c t).1 : ℚ) / ((flPair c t).2 : ℚ) ≤
          100 * (1 + 1 / 2 ^ 53) := by
        rw [div_le_iff₀ hden1Q]
        nlinarith [hb1]
      have hfinal : ((flPair (100 * (flPair c t).1) (flPair c t).2).1 : ℚ) <
          201 / 2 * ((flPair (100 * (flPair c t).1) (flPair c t).2).2 : ℚ) := by
        have hmid : (100 * (flPair c t).1 : ℚ) / ((flPair c t).2 : ℚ) * (1 + 1 / 2 ^ 53) ≤
            100 * (1 + 1 / 2 ^ 53) * (1 + 1 / 2 ^ 53) := by
          have hposf : (0:ℚ) ≤ 1 + 1 / 2 ^ 53 := by positivity
          nlinarith [h100]
        have hnum : (100:ℚ) * (1 + 1 / 2 ^ 53) * (1 + 1 / 2 ^ 53) < 201 / 2 := by norm_num
        calc ((flPair (100 * (flPair c t).1) (flPair c t).2).1 : ℚ)
            ≤ (100 * (flPair c t).1 : ℚ) / ((flPair c t).2 : ℚ) * (1 + 1 / 2 ^ 53) *
              ((flPair (100 * (flPair c t).1) (flPair c t).2).2 : ℚ) := hb2
          _ ≤ 100 * (1 + 1 / 2 ^ 53) * (1 + 1 / 2 ^ 53) *
              ((flPair (100 * (flPair c t).1) (flPair c t).2).2 : ℚ) := by
              nlinarith [hmid, hden2Q]
          _ < 201 / 2 * ((flPair (100 * (flPair c t).1) (flPair c t).2).2 : ℚ) := by
              nlinarith [hnum, hden2Q]
      exact roundHalfUp_le _ _ hden2 hfinal

theorem fixAvailRate_bounds (items : List Finding) :
    0 ≤ fixAvailRate items ∧ fixAvailRate items ≤ 100 := by
  rw [fixAvailRate]
  by_cases h : items.length = 0
  · rw [if_pos h]
    exact ⟨le_refl 0, by norm_num⟩
  · rw [if_neg h]
    refine ⟨Int.natCast_nonneg _, ?_⟩
    exact_mod_cast mathRound100Ratio_le (countWithFix items) items.length
      (List.length_filter_le _ items) (Nat.pos_of_ne_zero h)

/-- C9 counterexample: 23 of 40 findings carry a fix; the program computes
`100 * (23 / 40)` in float64 as 57.49999999999999 and `Math.round` yields
57, while the exact formula of the claim rounds 57.5 to 58 — so the claimed
equality with `round(100 * countWithFix / totalFindings)` fails on the
code. -/
theorem c9_counterexample :
    ∃ s, runPipeline "t" [("stable/x.cyclonedx.json", DocInput.doc
        ⟨some "CycloneDX", none, none, none,
          some (List.replicate 23 (some { emptyVuln with analysis := some ⟨some ["update"]⟩ }) ++
            List.replicate 17 (some emptyVuln))⟩)] = Except.ok s ∧
      countWithFix s.items = 23 ∧ s.items.length = 40 ∧
      s.metrics.fixAvailabilityRate = 57 ∧
      round (100 * (countWithFix s.items : ℚ) / (s.items.length : ℚ)) = 58 := by
  refine ⟨_, rfl, by decide, by decide, by decide, ?_⟩
  rw [show countWithFix (assembleSnapshot "t" (processFiles [("stable/x.cyclonedx.json",
      DocInput.doc ⟨some "CycloneDX", none, none, none,
        some (List.replicate 23 (some { emptyVuln with analysis := some ⟨some ["update"]⟩ }) ++
          List.replicate 17 (some emptyVuln))⟩)]).1).items = 23 from by decide,
    show (assembleSnapshot "t" (processFiles [("stable/x.cyclonedx.json",
      DocInput.doc ⟨some "CycloneDX", none, none, none,
        some (List.replicate 23 (some { emptyVuln with analysis := some ⟨some ["update"]⟩ }) ++
          List.replicate 17 (some emptyVuln))⟩)]).1).items.length = 40 from by decide]
  have heq : (100 * ((23:ℕ):ℚ)) / ((40:ℕ):ℚ) + 1 / 2 = ((58:ℤ):ℚ) := by
    push_cast
    norm_num
  rw [round_eq, heq, Int.floor_intCast]

/-- C9 amended: in every successful pipeline run the fix availability rate
equals `Math.round(100 * (countWithFix / totalFindings))` evaluated in
IEEE-754 float64 arithmetic, as the source computes it (which can differ
by one from exact rational rounding at half-way points); it equals exactly
0 when there are no findings, and always lies between 0 and 100. -/
theorem c9_fix_rate (now : String) (files : List (String × DocInput)) (s : Snapshot)
    (h : runPipeline now files = Except.ok s) :
    (s.items.length ≠ 0 → s.metrics.fixAvailabilityRate =
      (mathRound100Ratio (countWithFix s.items) s.items.length : ℤ)) ∧
    (s.items.length = 0 → s.metrics.fixAvailabilityRate = 0) ∧
    0 ≤ s.metrics.fixAvailabilityRate ∧ s.metrics.fixAvailabilityRate ≤ 100 := by
  have hrate : s.metrics.fixAvailabilityRate = fixAvailRate s.items := by
    simp only [runPipeline] at h
    by_cases hf : files.isEmpty
    · rw [if_pos hf] at h
      cases h
      rfl
    · rw [if_neg hf] at h
      by_cases hd : (processFiles files).1.isEmpty
      · rw [if_pos hd] at h
        exact Except.noConfusion h
      · rw [if_neg hd] at h
        cases h
        rfl
  rw [hrate]
  refine ⟨fun hne => ?_, fun he => ?_, (fixAvailRate_bounds s.items).1,
    (fixAvailRate_bounds s.items).2⟩
  · rw [fixAvailRate, if_neg hne]
  · rw [fixAvailRate, if_pos he]

/-- C9 witness: a concrete run with one finding carrying a fix; the rate
matches the float64 evaluation and is bounded. -/
theorem c9_fix_rate_witness :
    ∃ s, runPipeline "t" [("stable/x.cyclonedx.json",
        DocInput.doc ⟨some "CycloneDX", none, none, none,
          some [some { emptyVuln with analysis := some ⟨some ["update"]⟩ }]⟩)] =
      Except.ok s ∧
      s.metrics.fixAvailabilityRate =
        (mathRound100Ratio (countWithFix s.items) s.items.length : ℤ) ∧
      0 ≤ s.metrics.fixAvailabilityRate ∧ s.metrics.fixAvailabilityRate ≤ 100 := by
  have h : runPipeline "t" [("stable/x.cyclonedx.json",
      DocInput.doc ⟨some "CycloneDX", none, none, none,
        some [some { emptyVuln with analysis := some ⟨some ["update"]⟩ }]⟩)] =
    Except.ok (assembleSnapshot "t" (processFiles [("stable/x.cyclonedx.json",
      DocInput.doc ⟨some "CycloneDX", none, none, none,
        some [some { emptyVuln with analysis := some ⟨some ["update"]⟩ }]⟩)]).1) := rfl
  have c := c9_fix_rate "t" [("stable/x.cyclonedx.json",
      DocInput.doc ⟨some "CycloneDX", none, none, none,
        some [some { emptyVuln with analysis := some ⟨some ["update"]⟩ }]⟩)] _ h
  exact ⟨_, h, c.1 (by decide), c.2.2.1, c.2.2.2⟩

/-! ### C7 -/

theorem addItem_cveId {m : List CveAcc} {it : Finding}
    (hm : ∀ c ∈ m, isCveId c.id = true) :
    ∀ c ∈ addItem m it, isCveId c.id = true := by
  intro c hc
  rw [addItem] at hc
  by_cases h1 : isCveId (it.id.getD "")
  · rw [if_pos h1] at hc
    by_cases h2 : m.any (fun c => c.id = it.id.getD "")
    · rw [if_pos h2] at hc
      obtain ⟨c0, hc0, rfl⟩ := List.mem_map.mp hc
      by_cases h3 : c0.id = it.id.getD ""
      · rw [if_pos h3]
        simpa [updAcc, h3] using h1
      · rw [if_neg h3]
        exact hm c0 hc0
    · rw [if_neg h2] at hc
      rcases List.mem_append.mp hc with h | h
      · exact hm c h
      · rw [List.mem_singleton.mp h]
        simpa [updAcc, newAcc] using h1
  · rw [if_neg h1] at hc
    exact hm c hc

theorem foldl_addItem_cveId (items : List Finding) :
    ∀ (m : List CveAcc), (∀ c ∈ m, isCveId c.id = true) →
      ∀ c ∈ items.foldl addItem m, isCveId c.id = true := by
  induction items with
  | nil => exact fun m hm => hm
  | cons it tl ih => exact fun m hm => ih (addItem m it) (addItem_cveId hm)

instance : IsTotal TopCVE CveOrd :=
  ⟨fun a b => by
    unfold CveOrd cveLe
    simp only [Bool.or_eq_true, Bool.and_eq_true, decide_eq_true_eq, jsLe_iff]
    rcases lt_trichotomy a.worstSeverityRank b.worstSeverityRank with h | h | h
    · right
      exact Or.inl h
    · rcases lt_trichotomy a.count b.count with h2 | h2 | h2
      · right
        exact Or.inr ⟨h, Or.inl h2⟩
      · rcases le_total (a.maxCVSS.getD 0) (b.maxCVSS.getD 0) with h3 | h3
        · right
          exact Or.inr ⟨h, Or.inr ⟨h2, h3⟩⟩
        · left
          exact Or.inr ⟨h.symm, Or.inr ⟨h2.symm, h3⟩⟩
      · left
        exact Or.inr ⟨h.symm, Or.inl h2⟩
    · left
      exact Or.inl h⟩

instance : IsTrans TopCVE CveOrd :=
  ⟨fun a b c hab hbc => by
    unfold CveOrd cveLe at hab hbc ⊢
    simp only [Bool.or_eq_true, Bool.and_eq_true, decide_eq_true_eq, jsLe_iff] at hab hbc ⊢
    rcases hab with h1 | ⟨e1, h1⟩ <;> rcases hbc with h2 | ⟨e2, h2⟩
    · exact Or.inl (h2.trans h1)
    · exact Or.inl (e2 ▸ h1)
    · exact Or.inl (e1 ▸ h2)
    · refine Or.inr ⟨e2.trans e1, ?_⟩
      rcases h1 with h1 | ⟨f1, h1⟩ <;> rcases h2 with h2 | ⟨f2, h2⟩
      · exact Or.inl (h2.trans h1)
      · exact Or.inl (f2 ▸ h1)
      · exact Or.inl (f1 ▸ h2)
      · exact Or.inr ⟨f2.trans f1, h2.trans h1⟩⟩

/-- C7: every entry of `buildTopCVEs` has an id matching the CVE pattern
(findings with null or non-conforming ids are never grouped), the list is
sorted by the comparator order `CveOrd` (earlier tuple of worst severity
rank, count, max CVSS with null as 0 lexicographically greater or equal),
and at most 10 entries are returned. -/
theorem c7_top_cves (items : List Finding) :
    (∀ e ∈ buildTopCVEs items, isCveId e.id = true) ∧
    (buildTopCVEs items).Sorted CveOrd ∧
    (buildTopCVEs items).length ≤ 10 := by
  refine ⟨?_, ?_, ?_⟩
  · intro e he
    rw [buildTopCVEs] at he
    have he2 := (List.take_subset 10 _) he
    have he3 := (List.perm_insertionSort CveOrd _).subset he2
    obtain ⟨x, hx, rfl⟩ := List.mem_map.mp he3
    exact foldl_addItem_cveId items [] (by intro c hc; exact absurd hc (List.not_mem_nil c)) x hx
  · rw [buildTopCVEs]
    exact (List.sorted_insertionSort CveOrd _).sublist (List.take_sublist 10 _)
  · rw [buildTopCVEs]
    exact (List.length_take 10 _).le.trans (min_le_left 10 _)

/-- C7 witness: a concrete mixed-id input; only the conforming CVE id
ranks, and the output is sorted and within the cap. -/
theorem c7_top_cves_witness :
    (∀ e ∈ buildTopCVEs (processVuln [] "stable"
        { emptyVuln with id := some "CVE-2024-9999", severity := some "HIGH" } ++
      processVuln [] "stable" { emptyVuln with id := some "GHSA-xxxx" } ++
      processVuln [] "arm64"
        { emptyVuln with id := some "CVE-2024-9999", severity := some "CRITICAL" }),
      isCveId e.id = true) ∧
    (buildTopCVEs (processVuln [] "stable"
        { emptyVuln with id := some "CVE-2024-9999", severity := some "HIGH" } ++
      processVuln [] "stable" { emptyVuln with id := some "GHSA-xxxx" } ++
      processVuln [] "arm64"
        { emptyVuln with id := some "CVE-2024-9999", severity := some "CRITICAL" })).length ≤ 10 :=
  ⟨(c7_top_cves _).1, (c7_top_cves _).2.2⟩

/-! ### C5 -/

/-- The numeric score `pickCVSS` compares candidates by: `score ?? baseScore`
with null as 0. -/
def ratingKey (r : Rating) : ℚ :=
  ((r.score <|> r.baseScore)).getD 0

theorem ratingObj_score_getD (r : Rating) : (ratingObj r).score.getD 0 = ratingKey r := rfl

/-- C5: `pickCVSS` returns null exactly when no entry is valid (has a
score, base score, or non-empty severity text); otherwise the result is
built (severity uppercased) from a valid entry whose score is greatest
among the valid entries, and every valid entry occurring earlier has a
strictly smaller score — ties, including scoreless entries counted as 0,
go to the first-seen entry. -/
theorem c5_pick_best (scores : List Rating) :
    (pickCVSS scores = none ↔ ∀ r ∈ scores, ratingValid r = false) ∧
    (∀ b, pickCVSS scores = some b →
      ∃ l1 r l2, scores = l1 ++ r :: l2 ∧ ratingValid r = true ∧ b = ratingObj r ∧
        b.severity = jsToUpper ((orStr r.severity r.baseSeverity).getD "") ∧
        (∀ q ∈ scores, ratingValid q = true → ratingKey q ≤ ratingKey r) ∧
        (∀ q ∈ l1, ratingValid q = true → ratingKey q < ratingKey r)) := by
  induction scores using List.reverseRecOn with
  | nil =>
      refine ⟨⟨fun _ r hr => absurd hr (List.not_mem_nil r), fun _ => rfl⟩, ?_⟩
      intro b hb
      exact absurd hb (by rw [pickCVSS]; simp)
  | append_singleton l r ih =>
      have hstep : pickCVSS (l ++ [r]) = pickStep (pickCVSS l) r := by
        rw [pickCVSS, pickCVSS, List.foldl_append, List.foldl_cons, List.foldl_nil]
      cases hcase : pickCVSS l with
      | none =>
          have hall : ∀ q ∈ l, ratingValid q = false := ih.1.mp hcase
          cases hvr : ratingValid r with
          | false =>
              have hres : pickCVSS (l ++ [r]) = none := by
                rw [hstep, hcase, pickStep, hvr]
                simp
              refine ⟨⟨fun _ q hq => ?_, fun _ => hres⟩, fun b hb => ?_⟩
              · rcases List.mem_append.mp hq with h | h
                · exact hall q h
                · rw [List.mem_singleton.mp h]
                  exact hvr
              · rw [hres] at hb
                exact Option.noConfusion hb
          | true =>
              have hres : pickCVSS (l ++ [r]) = some (ratingObj r) := by
                rw [hstep, hcase, pickStep, hvr]
                simp
              refine ⟨⟨fun h => absurd (hres ▸ h) (by simp), fun h => ?_⟩, fun b hb => ?_⟩
              · exact absurd hvr (by rw [h r (by simp)]; simp)
              · rw [hres, Option.some_inj] at hb
                subst hb
                refine ⟨l, r, [], rfl, hvr, rfl, rfl, fun q hq hvq => ?_,
                  fun q hq hvq => absurd hvq (by rw [hall q hq]; simp)⟩
                rcases List.mem_append.mp hq with h | h
                · exact absurd hvq (by rw [hall q h]; simp)
                · rw [List.mem_singleton.mp h]
      | some b0 =>
          obtain ⟨l1, rm, l2, heq, hvm, hbm, -, hmax, hstrict⟩ := ih.2 b0 hcase
          have hb0key : b0.score.getD 0 = ratingKey rm := by
            rw [hbm, ratingObj_score_getD]
          cases hvr : ratingValid r with
          | false =>
              have hres : pickCVSS (l ++ [r]) = some b0 := by
                rw [hstep, hcase, pickStep, hvr]
                simp
              refine ⟨⟨fun h => absurd (hres ▸ h) (by simp), fun h => ?_⟩, fun b hb => ?_⟩
              · exact absurd (h rm (by rw [heq]; simp)) (by rw [hvm]; simp)
              · rw [hres, Option.some_inj] at hb
                subst hb
                refine ⟨l1, rm, l2 ++ [r], by rw [heq]; simp, hvm, hbm,
                  by rw [hbm]; rfl, fun q hq hvq => ?_, hstrict⟩
                rcases List.mem_append.mp hq with h | h
                · exact hmax q (heq ▸ h) hvq
                · rw [List.mem_singleton.mp h] at hvq
                  exact absurd hvq (by rw [hvr]; simp)
          | true =>
              cases hlt : jsLt (b0.score.getD 0) (ratingKey r) with
              | true =>
                  have hres : pickCVSS (l ++ [r]) = some (ratingObj r) := by
                    rw [hstep, hcase, pickStep, hvr]
                    simp only [if_true]
                    rw [show (ratingObj r).score.getD 0 = ratingKey r from rfl, hlt]
                    simp
                  have hklt : ratingKey rm < ratingKey r := by
                    rw [hb0key] at hlt
                    exact (jsLt_iff _ _).mp hlt
                  refine ⟨⟨fun h => absurd (hres ▸ h) (by simp), fun h => ?_⟩,
                    fun b hb => ?_⟩
                  · exact absurd (h r (by simp)) (by rw [hvr]; simp)
                  · rw [hres, Option.some_inj] at hb
                    subst hb
                    refine ⟨l, r, [], rfl, hvr, rfl, rfl, fun q hq hvq => ?_,
                      fun q hq hvq => ?_⟩
                    · rcases List.mem_append.mp hq with h | h
                      · exact (hmax q (heq ▸ h) hvq).trans hklt.le
                      · rw [List.mem_singleton.mp h]
                    · exact lt_of_le_of_lt (hmax q (heq ▸ hq) hvq) hklt
              | false =>
                  have hres : pickCVSS (l ++ [r]) = some b0 := by
                    rw [hstep, hcase, pickStep, hvr]
                    simp only [if_true]
                    rw [show (ratingObj r).score.getD 0 = ratingKey r from rfl, hlt]
                    simp
                  have hkle : ratingKey r ≤ ratingKey rm := by
                    rw [hb0key] at hlt
                    by_contra hc
                    rw [(jsLt_iff _ _).mpr (not_le.mp hc)] at hlt
                    exact Bool.noConfusion hlt
                  refine ⟨⟨fun h => absurd (hres ▸ h) (by simp), fun h => ?_⟩,
                    fun b hb => ?_⟩
                  · exact absurd (h r (by simp)) (by rw [hvr]; simp)
                  · rw [hres, Option.some_inj] at hb
                    subst hb
                    refine ⟨l1, rm, l2 ++ [r], by rw [heq]; simp, hvm, hbm,
                      by rw [hbm]; rfl, fun q hq hvq => ?_, hstrict⟩
                    rcases List.mem_append.mp hq with h | h
                    · exact hmax q (heq ▸ h) hvq
                    · rw [List.mem_singleton.mp h]
                      exact hkle

/-- C5 witness: on a list with an invalid entry, a tie, and a maximum, the
result is built from the first entry attaining the maximal score. -/
theorem c5_pick_best_witness :
    (pickCVSS [] = none) ∧
    (∃ l1 r l2,
      ([⟨none, none, none, none, some "m", none⟩,
        ⟨some 5, none, some "high", none, none, none⟩,
        ⟨some 9, none, some "critical", none, none, none⟩,
        ⟨some 9, none, some "high", none, none, none⟩] : List Rating) = l1 ++ r :: l2 ∧
      ratingValid r = true ∧
      (⟨some 9, "CRITICAL", none⟩ : BestRating) = ratingObj r ∧
      (⟨some 9, "CRITICAL", none⟩ : BestRating).severity =
        jsToUpper ((orStr r.severity r.baseSeverity).getD "") ∧
      (∀ q ∈ ([⟨none, none, none, none, some "m", none⟩,
        ⟨some 5, none, some "high", none, none, none⟩,
        ⟨some 9, none, some "critical", none, none, none⟩,
        ⟨some 9, none, some "high", none, none, none⟩] : List Rating),
        ratingValid q = true → ratingKey q ≤ ratingKey r) ∧
      (∀ q ∈ l1, ratingValid q = true → ratingKey q < ratingKey r)) :=
  ⟨(c5_pick_best []).1.mpr (fun r hr => absurd hr (List.not_mem_nil r)),
   (c5_pick_best _).2 ⟨some 9, "CRITICAL", none⟩ rfl⟩

end Sbom
